import Mathlib

/-!
Verification of the broker ingress routing core of knative-gcp:
the configuration snapshot store (pkg/broker/config/cache.go) and the
multi-topic decouple sink (pkg/broker/ingress/multi_topic_decouple_sink.go).

The Go code is shallowly embedded: Go maps become association lists whose
list order records Go's unspecified map iteration order, pointers become
Option, and the panic that a type assertion on a nil interface raises is
made explicit as a Fault value propagated by every caller.
-/

set_option autoImplicit false

namespace KnativeGCP

/-- Lifecycle state of a decouple queue
(config.State in the broker config proto). -/
inductive QState where
  | unknown
  | creating
  | ready
  | failed
deriving DecidableEq, Repr

/-- config.Queue: the decouple queue of a broker, carrying the pubsub topic
identifier and the queue lifecycle state. -/
structure Queue where
  topic : String
  state : QState
deriving DecidableEq, Repr

/-- config.Target: a trigger belonging to a broker; only the pieces the
ingress code reads are kept (name and filter attributes). -/
structure Target where
  name : String
  filterAttributes : List (String × String)
deriving DecidableEq, Repr

/-- config.Broker: DecoupleQueue is a proto pointer field, hence Option;
Targets is a Go map from target name, embedded as an association list whose
order records Go's unspecified map iteration order. -/
structure Broker where
  decoupleQueue : Option Queue
  targets : List (String × Target)
deriving DecidableEq, Repr

/-- config.TargetsConfig: the full snapshot, a Go map from the broker key
persistence string to the broker, embedded as an association list whose
order records Go's unspecified map iteration order. A nil Go map and an
empty Go map are observationally equal for lookup and range, so both embed
as the empty list. -/
structure TargetsConfig where
  brokers : List (String × Broker)
deriving DecidableEq, Repr

/-- config.BrokerKey: namespace plus name of a logical broker. -/
structure BrokerKey where
  ns : String
  name : String
deriving DecidableEq, Repr

/-- BrokerKey.PersistenceString: the canonical map key namespace/name. -/
def BrokerKey.persistenceString (k : BrokerKey) : String :=
  k.ns ++ "/" ++ k.name

/-- First-match lookup in an association list; Go map keys are unique, so
this is exactly Go map indexing. -/
def lookupKey {α β : Type} [DecidableEq α] : List (α × β) → α → Option β
  | [], _ => none
  | (k, v) :: rest, key => if k = key then some v else lookupKey rest key

/-- Go map assignment m[key] = v: replace the binding if the key is
present, otherwise add it. -/
def insertKey {α β : Type} [DecidableEq α] : List (α × β) → α → β → List (α × β)
  | [], key, v => [(key, v)]
  | (k, w) :: rest, key, v =>
    if k = key then (key, v) :: rest else (k, w) :: insertKey rest key v

/-- A Go runtime fault (panic) observable in the embedded code. -/
inductive Fault where
  | nilInterfaceAssertion
deriving DecidableEq, Repr

/-- CachedTargets (pkg/broker/config/cache.go): a single sync/atomic.Value
cell. The outer Option is the atomic.Value content: none means nothing was
ever stored (a nil interface); some p means the pointer p was stored, and p
itself is Option TargetsConfig because the stored *TargetsConfig pointer may
be nil. -/
abbrev CachedTargets := Option (Option TargetsConfig)

namespace CachedTargets

/-- A freshly constructed CachedTargets: no Store has ever happened. -/
def new : CachedTargets := none

/-- CachedTargets.Store: atomically stores a *TargetsConfig. -/
def Store (_ct : CachedTargets) (t : Option TargetsConfig) : CachedTargets :=
  some t

/-- CachedTargets.Load: ct.Value.Load().(*TargetsConfig). When nothing was
ever stored, atomic.Value.Load() yields a nil interface and the unchecked
type assertion panics; the panic is the explicit Fault error. -/
def Load (ct : CachedTargets) : Except Fault (Option TargetsConfig) :=
  match ct with
  | none => Except.error Fault.nilInterfaceAssertion
  | some v => Except.ok v

/-- CachedTargets.GetBrokerByKey: loads the snapshot and indexes the broker
map by the key's persistence string; (nil, false) when the snapshot pointer
or the map is nil or the key is absent. A Load fault propagates. -/
def GetBrokerByKey (ct : CachedTargets) (key : BrokerKey) :
    Except Fault (Option Broker) :=
  match ct.Load with
  | Except.error f => Except.error f
  | Except.ok none => Except.ok none
  | Except.ok (some val) => Except.ok (lookupKey val.brokers key.persistenceString)

/-- Inner loop of RangeAllTargets over one broker's targets: the visitor
threads a state and returns a continue flag; returning false stops the whole
traversal. The Bool in the result is the continue flag for the outer loop. -/
def rangeTargetList {σ : Type} (f : σ → Target → σ × Bool) :
    σ → List (String × Target) → σ × Bool
  | s, [] => (s, true)
  | s, (_, t) :: ts =>
    match f s t with
    | (s', true) => rangeTargetList f s' ts
    | (s', false) => (s', false)

/-- Outer loop of RangeAllTargets over all brokers. -/
def rangeBrokerList {σ : Type} (f : σ → Target → σ × Bool) :
    σ → List (String × Broker) → σ
  | s, [] => s
  | s, (_, b) :: bs =>
    match rangeTargetList f s b.targets with
    | (s', true) => rangeBrokerList f s' bs
    | (s', false) => s'

/-- CachedTargets.RangeAllTargets: visits every target of every broker in
the loaded snapshot until the visitor returns false; the Go closure's
captured variables are the threaded state. A Load fault propagates. -/
def RangeAllTargets {σ : Type} (ct : CachedTargets)
    (f : σ → Target → σ × Bool) (init : σ) : Except Fault σ :=
  match ct.Load with
  | Except.error fl => Except.error fl
  | Except.ok none => Except.ok init
  | Except.ok (some val) => Except.ok (rangeBrokerList f init val.brokers)

end CachedTargets

/-! ## Serialization (CachedTargets.Bytes)

CachedTargets.Bytes calls proto.Marshal (google.golang.org/protobuf) on the
loaded snapshot. That library, with default options (no Deterministic flag,
as in the source), emits each map entry as a length-delimited submessage in
Go map iteration order, which the language leaves unspecified; the
association list order of the embedding records that iteration order. The
byte layout below is a simplified tag-free wire image; what matters for the
claims is that entries are emitted in iteration order. -/

/-- Wire image of a string: length then code points. -/
def encodeString (s : String) : List Nat :=
  s.length :: s.data.map Char.toNat

/-- Wire image of a queue state enum. -/
def encodeQState : QState → Nat
  | QState.unknown => 0
  | QState.creating => 1
  | QState.ready => 2
  | QState.failed => 3

/-- Wire image of an optional decouple queue field. -/
def encodeQueue : Option Queue → List Nat
  | none => [0]
  | some q => 1 :: encodeString q.topic ++ [encodeQState q.state]

/-- Wire image of one target map entry. -/
def encodeTargetEntry (e : String × Target) : List Nat :=
  encodeString e.1 ++ encodeString e.2.name ++
    (e.2.filterAttributes.flatMap fun kv => encodeString kv.1 ++ encodeString kv.2)

/-- Wire image of one broker map entry: emitted in map iteration order. -/
def encodeBrokerEntry (e : String × Broker) : List Nat :=
  encodeString e.1 ++ encodeQueue e.2.decoupleQueue ++
    e.2.targets.flatMap encodeTargetEntry

/-- proto.Marshal on a *TargetsConfig: a nil message marshals to empty
bytes; otherwise the broker map entries are emitted consecutively in map
iteration order. -/
def protoMarshal : Option TargetsConfig → List Nat
  | none => []
  | some tc => tc.brokers.flatMap encodeBrokerEntry

/-- CachedTargets.Bytes: serializes the loaded snapshot. The Load fault
propagates (Bytes also performs the unchecked type assertion via Load). -/
def CachedTargets.Bytes (ct : CachedTargets) : Except Fault (List Nat) :=
  match ct.Load with
  | Except.error f => Except.error f
  | Except.ok v => Except.ok (protoMarshal v)

/-- Two snapshots have equal content when they agree as finite maps: every
key bound in either is bound to the same broker in both. -/
def TargetsConfig.contentEqual (a b : TargetsConfig) : Bool :=
  (a.brokers.all fun e => lookupKey a.brokers e.1 = lookupKey b.brokers e.1) &&
  (b.brokers.all fun e => lookupKey a.brokers e.1 = lookupKey b.brokers e.1)

/-! ## Multi-topic decouple sink (pkg/broker/ingress/multi_topic_decouple_sink.go)

The sink owns a map from BrokerKey to cached pubsub topic handles. A pubsub
client's Topic(id) call returns a fresh handle object each time; handles are
therefore given a unique uid drawn from a counter in the sink state, so that
creation and Stop events can be counted. Externally-owned behavior (the
trigger filter function, event encoding, the publish outcome) enters through
an environment of function parameters. -/

/-- A *pubsub.Topic handle: uid identifies the handle object, id the topic
identifier it is bound to (Topic.ID()). -/
structure TopicHandle where
  uid : Nat
  id : String
deriving DecidableEq, Repr

/-- The classified routing errors ErrNotFound, ErrIncomplete, ErrNotReady. -/
inductive SendErr where
  | notFound
  | incomplete
  | notReady
deriving DecidableEq, Repr

/-- Everything a Send call can fail with: a propagated Go panic, a
classified routing error, an event-encoding error, or the verbatim publish
outcome error. -/
inductive Failure where
  | fault (f : Fault)
  | classified (e : SendErr)
  | encodeFailure (msg : String)
  | publishFailure (msg : String)
deriving DecidableEq, Repr

/-- An incoming CloudEvent, abstracted to its id and attributes. -/
structure Event where
  id : String
  attrs : List (String × String)
deriving DecidableEq, Repr

/-- Mutable state of multiTopicDecoupleSink: the topics map plus the pubsub
client's handle counter (models that each client.Topic call builds a fresh
handle object). -/
structure SinkState where
  topics : List (BrokerKey × TopicHandle)
  nextUid : Nat
deriving DecidableEq, Repr

/-- Externally observable side effects of one or more calls: handle objects
created by client.Topic, handles stopped by Topic.Stop, and publish calls
issued with the handle used. -/
structure Effects where
  created : List TopicHandle
  stopped : List TopicHandle
  published : List (TopicHandle × Event)
deriving DecidableEq, Repr

/-- No side effects. -/
def Effects.zero : Effects := ⟨[], [], []⟩

/-- Concatenation of the effects of consecutive calls. -/
def Effects.app (a b : Effects) : Effects :=
  ⟨a.created ++ b.created, a.stopped ++ b.stopped, a.published ++ b.published⟩

/-- The sink's environment: the event-filtering toggle and the external
collaborators (trigger filter predicate, event encoder outcome, publish
outcome), all injected as functions. -/
structure Env where
  enableEventFiltering : Bool
  eventFilterFunc : List (String × String) → Event → Bool
  encodeErr : Event → Option String
  pubErr : TopicHandle → Event → Option String

/-- getTopicIDForBroker: looks the broker up in the snapshot; unknown broker
is ErrNotFound, nil DecoupleQueue or empty Topic is ErrIncomplete, state
other than READY is ErrNotReady; otherwise the configured topic id. The
short-circuit of the Go condition DecoupleQueue == nil || Topic == "" is the
match-then-if below. A fault from GetBrokerByKey propagates. -/
def getTopicIDForBroker (ct : CachedTargets) (broker : BrokerKey) :
    Except Failure String :=
  match ct.GetBrokerByKey broker with
  | Except.error f => Except.error (Failure.fault f)
  | Except.ok none => Except.error (Failure.classified SendErr.notFound)
  | Except.ok (some brokerConfig) =>
    match brokerConfig.decoupleQueue with
    | none => Except.error (Failure.classified SendErr.incomplete)
    | some q =>
      if q.topic = "" then Except.error (Failure.classified SendErr.incomplete)
      else if q.state ≠ QState.ready then
        Except.error (Failure.classified SendErr.notReady)
      else Except.ok q.topic

/-- getExistingTopic: read-locked lookup in the topics map. -/
def getExistingTopic (st : SinkState) (broker : BrokerKey) : Option TopicHandle :=
  lookupKey st.topics broker

/-- updateTopicForBroker: under the write lock, re-fetch the configured
topic id, re-check the cached handle, stop the stale handle if its bound id
differs, then build a fresh handle via client.Topic and store it. Returns
the resolved handle, the new sink state, and the side effects. -/
def updateTopicForBroker (ct : CachedTargets) (st : SinkState)
    (broker : BrokerKey) :
    Except Failure TopicHandle × SinkState × Effects :=
  match getTopicIDForBroker ct broker with
  | Except.error e => (Except.error e, st, Effects.zero)
  | Except.ok topicID =>
    match lookupKey st.topics broker with
    | some topic =>
      if topic.id = topicID then (Except.ok topic, st, Effects.zero)
      else
        (Except.ok ⟨st.nextUid, topicID⟩,
         ⟨insertKey st.topics broker ⟨st.nextUid, topicID⟩, st.nextUid + 1⟩,
         ⟨[⟨st.nextUid, topicID⟩], [topic], []⟩)
    | none =>
      (Except.ok ⟨st.nextUid, topicID⟩,
       ⟨insertKey st.topics broker ⟨st.nextUid, topicID⟩, st.nextUid + 1⟩,
       ⟨[⟨st.nextUid, topicID⟩], [], []⟩)

/-- getTopicForBroker: resolve the configured topic id, take the read-locked
fast path when the cached handle's bound id matches, otherwise fall through
to updateTopicForBroker. -/
def getTopicForBroker (ct : CachedTargets) (st : SinkState)
    (broker : BrokerKey) :
    Except Failure TopicHandle × SinkState × Effects :=
  match getTopicIDForBroker ct broker with
  | Except.error e => (Except.error e, st, Effects.zero)
  | Except.ok topicID =>
    match getExistingTopic st broker with
    | some topic =>
      if topic.id = topicID then (Except.ok topic, st, Effects.zero)
      else updateTopicForBroker ct st broker
    | none => updateTopicForBroker ct st broker

/-- hasTrigger: ranges over ALL targets of ALL brokers in the snapshot via
RangeAllTargets; the visitor sets the flag and stops at the first target
whose filter passes the event. A Load fault propagates. -/
def hasTrigger (env : Env) (ct : CachedTargets) (event : Event) :
    Except Fault Bool :=
  ct.RangeAllTargets
    (fun h target =>
      if env.eventFilterFunc target.filterAttributes event then (true, false)
      else (h, true))
    false

/-- The encode-and-publish tail of Send: WritePubSubMessage then
topic.Publish(ctx, msg).Get(ctx), whose outcome is returned verbatim. -/
def publishPhase (env : Env) (topic : TopicHandle) (event : Event)
    (st : SinkState) (eff : Effects) :
    Except Failure Unit × SinkState × Effects :=
  match env.encodeErr event with
  | some msg => (Except.error (Failure.encodeFailure msg), st, eff)
  | none =>
    match env.pubErr topic event with
    | some msg =>
      (Except.error (Failure.publishFailure msg), st,
       ⟨eff.created, eff.stopped, eff.published ++ [(topic, event)]⟩)
    | none =>
      (Except.ok (), st,
       ⟨eff.created, eff.stopped, eff.published ++ [(topic, event)]⟩)

/-- Send: resolve the topic handle for the broker (classified errors abort
the call); when event filtering is enabled and no trigger anywhere in the
snapshot is interested, drop the event and return nil; otherwise encode and
publish, returning the publish outcome verbatim. -/
def Send (env : Env) (ct : CachedTargets) (st : SinkState)
    (broker : BrokerKey) (event : Event) :
    Except Failure Unit × SinkState × Effects :=
  match getTopicForBroker ct st broker with
  | (Except.error e, st', eff) => (Except.error e, st', eff)
  | (Except.ok topic, st', eff) =>
    if env.enableEventFiltering then
      match hasTrigger env ct event with
      | Except.error f => (Except.error (Failure.fault f), st', eff)
      | Except.ok true => publishPhase env topic event st' eff
      | Except.ok false => (Except.ok (), st', eff)
    else publishPhase env topic event st' eff

/-- A sequence of Send calls for one broker and event, one snapshot per
call; the final state and the concatenated side effects. -/
def sendSeq (env : Env) (broker : BrokerKey) (event : Event) :
    List CachedTargets → SinkState → SinkState × Effects
  | [], st => (st, Effects.zero)
  | ct :: rest, st =>
    match Send env ct st broker event with
    | (_, st', eff) =>
      match sendSeq env broker event rest st' with
      | (stF, effRest) => (stF, eff.app effRest)

/-! ## Concrete data shared by witnesses -/

/-- Environment with filtering disabled and benign external collaborators. -/
def env0 : Env :=
  ⟨false, fun _ _ => false, fun _ => none, fun _ _ => none⟩

/-- Empty sink state. -/
def st0 : SinkState := ⟨[], 0⟩

/-- A broker key. -/
def bk0 : BrokerKey := ⟨"ns", "b"⟩

/-- An event. -/
def ev0 : Event := ⟨"id1", [("type", "x")]⟩

/-- A snapshot whose broker map is empty. -/
def ctEmpty : CachedTargets := CachedTargets.Store CachedTargets.new (some ⟨[]⟩)

/-! ## Claims -/

/-- Claim C1: the claim says the pre-first-store read path is non-faulting;
on the code it faults. atomic.Value.Load() on a never-stored cell yields a
nil interface and the unchecked type assertion in CachedTargets.Load panics,
so Load, GetBrokerByKey and RangeAllTargets all fault before any Store, even
though Load's own documentation promises nil. This theorem evaluates the
embedded code at the failing input. -/
theorem preStoreReadFaults :
    CachedTargets.Load CachedTargets.new
      = Except.error Fault.nilInterfaceAssertion ∧
    CachedTargets.GetBrokerByKey CachedTargets.new ⟨"ns", "b"⟩
      = Except.error Fault.nilInterfaceAssertion ∧
    CachedTargets.RangeAllTargets CachedTargets.new
      (fun (n : Nat) _ => (n + 1, true)) 0
      = Except.error Fault.nilInterfaceAssertion :=
  ⟨rfl, rfl, rfl⟩

/-- Claim C8: Store(s) followed by Load() yields exactly the stored
snapshot value, for every snapshot (including a nil pointer) and every prior
cell state: the store/load round-trip is the identity. -/
theorem store_load_roundtrip (ct : CachedTargets) (t : Option TargetsConfig) :
    (ct.Store t).Load = Except.ok t :=
  rfl

/-- Claim C2: for a broker key not present in the current snapshot, Send
returns the NotFound classified error, the sink state is returned unchanged,
and no handle is created or stopped and nothing is published. -/
theorem send_unknownBroker_notFound (env : Env) (ct : CachedTargets)
    (st : SinkState) (broker : BrokerKey) (event : Event)
    (h : ct.GetBrokerByKey broker = Except.ok none) :
    Send env ct st broker event
      = (Except.error (Failure.classified SendErr.notFound), st, Effects.zero) := by
  simp [Send, getTopicForBroker, getTopicIDForBroker, h]

/-- Witness for C2 at a concrete snapshot with an empty broker map. -/
theorem send_unknownBroker_notFound_w :
    CachedTargets.GetBrokerByKey ctEmpty bk0 = Except.ok none ∧
    Send env0 ctEmpty st0 bk0 ev0
      = (Except.error (Failure.classified SendErr.notFound), st0, Effects.zero) :=
  ⟨rfl, send_unknownBroker_notFound env0 ctEmpty st0 bk0 ev0 rfl⟩

/-- Claim C3: for a broker present in the snapshot whose DecoupleQueue is
nil or whose queue Topic is the empty string, Send returns the Incomplete
classified error with no state change and no publish. -/
theorem send_missingQueue_incomplete (env : Env) (ct : CachedTargets)
    (st : SinkState) (broker : BrokerKey) (event : Event) (b : Broker)
    (h : ct.GetBrokerByKey broker = Except.ok (some b))
    (h2 : b.decoupleQueue = none ∨ ∃ q, b.decoupleQueue = some q ∧ q.topic = "") :
    Send env ct st broker event
      = (Except.error (Failure.classified SendErr.incomplete), st, Effects.zero) := by
  rcases h2 with hq | ⟨q, hq, ht⟩
  · simp [Send, getTopicForBroker, getTopicIDForBroker, h, hq]
  · simp [Send, getTopicForBroker, getTopicIDForBroker, h, hq, ht]

/-- Witness for C3: broker present, DecoupleQueue nil. -/
theorem send_missingQueue_incomplete_w :
    CachedTargets.GetBrokerByKey
        (CachedTargets.Store CachedTargets.new (some ⟨[("ns/b", ⟨none, []⟩)]⟩)) bk0
      = Except.ok (some ⟨none, []⟩) ∧
    Send env0 (CachedTargets.Store CachedTargets.new (some ⟨[("ns/b", ⟨none, []⟩)]⟩))
        st0 bk0 ev0
      = (Except.error (Failure.classified SendErr.incomplete), st0, Effects.zero) :=
  ⟨rfl,
   send_missingQueue_incomplete env0 _ st0 bk0 ev0 ⟨none, []⟩ rfl (Or.inl rfl)⟩

/-- Claim C4: for a broker present in the snapshot whose queue topic id is
set but whose queue state is not READY, Send returns the NotReady classified
error with no state change and no publish. -/
theorem send_unready_notReady (env : Env) (ct : CachedTargets)
    (st : SinkState) (broker : BrokerKey) (event : Event) (b : Broker)
    (q : Queue)
    (h : ct.GetBrokerByKey broker = Except.ok (some b))
    (hq : b.decoupleQueue = some q) (ht : q.topic ≠ "")
    (hs : q.state ≠ QState.ready) :
    Send env ct st broker event
      = (Except.error (Failure.classified SendErr.notReady), st, Effects.zero) := by
  simp [Send, getTopicForBroker, getTopicIDForBroker, h, hq, ht, hs]

/-- Witness for C4: broker present, topic set, state CREATING. -/
theorem send_unready_notReady_w :
    CachedTargets.GetBrokerByKey
        (CachedTargets.Store CachedTargets.new
          (some ⟨[("ns/b", ⟨some ⟨"t1", QState.creating⟩, []⟩)]⟩)) bk0
      = Except.ok (some ⟨some ⟨"t1", QState.creating⟩, []⟩) ∧
    Send env0
        (CachedTargets.Store CachedTargets.new
          (some ⟨[("ns/b", ⟨some ⟨"t1", QState.creating⟩, []⟩)]⟩)) st0 bk0 ev0
      = (Except.error (Failure.classified SendErr.notReady), st0, Effects.zero) :=
  ⟨rfl,
   send_unready_notReady env0
     (CachedTargets.Store CachedTargets.new
       (some ⟨[("ns/b", ⟨some ⟨"t1", QState.creating⟩, []⟩)]⟩))
     st0 bk0 ev0 ⟨some ⟨"t1", QState.creating⟩, []⟩
     ⟨"t1", QState.creating⟩ rfl rfl (by decide) (by decide)⟩

/-- Claim C10: when a present broker's queue has an empty topic id AND a
state other than READY, the misconfiguration check fires first: Send returns
Incomplete, not NotReady. -/
theorem send_incomplete_precedence (env : Env) (ct : CachedTargets)
    (st : SinkState) (broker : BrokerKey) (event : Event) (b : Broker)
    (q : Queue)
    (h : ct.GetBrokerByKey broker = Except.ok (some b))
    (hq : b.decoupleQueue = some q) (ht : q.topic = "")
    (hs : q.state ≠ QState.ready) :
    Send env ct st broker event
      = (Except.error (Failure.classified SendErr.incomplete), st, Effects.zero) := by
  simp [Send, getTopicForBroker, getTopicIDForBroker, h, hq, ht]

/-- Witness for C10: empty topic id and state CREATING give Incomplete. -/
theorem send_incomplete_precedence_w :
    CachedTargets.GetBrokerByKey
        (CachedTargets.Store CachedTargets.new
          (some ⟨[("ns/b", ⟨some ⟨"", QState.creating⟩, []⟩)]⟩)) bk0
      = Except.ok (some ⟨some ⟨"", QState.creating⟩, []⟩) ∧
    Send env0
        (CachedTargets.Store CachedTargets.new
          (some ⟨[("ns/b", ⟨some ⟨"", QState.creating⟩, []⟩)]⟩)) st0 bk0 ev0
      = (Except.error (Failure.classified SendErr.incomplete), st0, Effects.zero) :=
  ⟨rfl,
   send_incomplete_precedence env0
     (CachedTargets.Store CachedTargets.new
       (some ⟨[("ns/b", ⟨some ⟨"", QState.creating⟩, []⟩)]⟩))
     st0 bk0 ev0 ⟨some ⟨"", QState.creating⟩, []⟩
     ⟨"", QState.creating⟩ rfl rfl rfl (by decide)⟩

/-! ## Handle-lifecycle lemmas -/

/-- Looking up the key just written by a Go map assignment yields the new
value. -/
theorem lookupKey_insertKey_self {α β : Type} [DecidableEq α]
    (l : List (α × β)) (k : α) (v : β) :
    lookupKey (insertKey l k v) k = some v := by
  induction l with
  | nil => simp [insertKey, lookupKey]
  | cons e rest ih =>
    by_cases he : e.1 = k
    · simp [insertKey, lookupKey, he]
    · simp [insertKey, lookupKey, he, ih]

/-- publishPhase returns the state it was given and only ever appends to
the published effects; created and stopped pass through. -/
theorem publishPhase_shape (env : Env) (topic : TopicHandle) (event : Event)
    (st : SinkState) (eff : Effects) :
    ∃ r pubs,
      publishPhase env topic event st eff = (r, st, ⟨eff.created, eff.stopped, pubs⟩) := by
  unfold publishPhase
  cases env.encodeErr event with
  | none =>
    cases env.pubErr topic event with
    | none => exact ⟨_, _, rfl⟩
    | some msg => exact ⟨_, _, rfl⟩
  | some msg => exact ⟨_, _, rfl⟩

/-- Once the handle is resolved, the rest of Send (filtering, encoding,
publishing) neither touches the sink state nor creates or stops handles. -/
theorem send_after_resolve (env : Env) (ct : CachedTargets) (st : SinkState)
    (broker : BrokerKey) (event : Event) (topic : TopicHandle)
    (st' : SinkState) (eff : Effects)
    (hres : getTopicForBroker ct st broker = (Except.ok topic, st', eff)) :
    ∃ r pubs, Send env ct st broker event = (r, st', ⟨eff.created, eff.stopped, pubs⟩) := by
  unfold Send
  rw [hres]
  dsimp only
  cases env.enableEventFiltering with
  | false => exact publishPhase_shape env topic event st' eff
  | true =>
    cases hasTrigger env ct event with
    | error f => exact ⟨_, eff.published, rfl⟩
    | ok b =>
      cases b with
      | false => exact ⟨_, eff.published, rfl⟩
      | true => exact publishPhase_shape env topic event st' eff

/-- Fast path of getTopicForBroker: cached handle bound to the configured
id is returned with no state change and no effects. -/
theorem getTopic_fast (ct : CachedTargets) (st : SinkState) (broker : BrokerKey)
    (h : TopicHandle) (tid : String)
    (hres : getTopicIDForBroker ct broker = Except.ok tid)
    (hcache : lookupKey st.topics broker = some h) (hid : h.id = tid) :
    getTopicForBroker ct st broker = (Except.ok h, st, Effects.zero) := by
  simp [getTopicForBroker, hres, getExistingTopic, hcache, hid]

/-- First resolution for a broker with no cached handle: exactly one fresh
handle bound to the configured id is created and stored; nothing is
stopped. -/
theorem getTopic_create (ct : CachedTargets) (st : SinkState) (broker : BrokerKey)
    (tid : String)
    (hres : getTopicIDForBroker ct broker = Except.ok tid)
    (hnone : lookupKey st.topics broker = none) :
    getTopicForBroker ct st broker
      = (Except.ok ⟨st.nextUid, tid⟩,
         ⟨insertKey st.topics broker ⟨st.nextUid, tid⟩, st.nextUid + 1⟩,
         ⟨[⟨st.nextUid, tid⟩], [], []⟩) := by
  simp [getTopicForBroker, getExistingTopic, updateTopicForBroker, hres, hnone]

/-- Drift path of getTopicForBroker: a cached handle bound to a stale id is
stopped exactly once, and exactly one fresh handle bound to the new id is
created and stored. -/
theorem getTopic_drift (ct : CachedTargets) (st : SinkState) (broker : BrokerKey)
    (h : TopicHandle) (t2 : String)
    (hres : getTopicIDForBroker ct broker = Except.ok t2)
    (hcache : lookupKey st.topics broker = some h) (hne : h.id ≠ t2) :
    getTopicForBroker ct st broker
      = (Except.ok ⟨st.nextUid, t2⟩,
         ⟨insertKey st.topics broker ⟨st.nextUid, t2⟩, st.nextUid + 1⟩,
         ⟨[⟨st.nextUid, t2⟩], [h], []⟩) := by
  simp [getTopicForBroker, getExistingTopic, updateTopicForBroker, hres, hcache, hne]

/-- A Send call that hits the fast path leaves the sink state untouched and
creates and stops nothing. -/
theorem send_steady (env : Env) (ct : CachedTargets) (st : SinkState)
    (broker : BrokerKey) (event : Event) (h : TopicHandle) (tid : String)
    (hres : getTopicIDForBroker ct broker = Except.ok tid)
    (hcache : lookupKey st.topics broker = some h) (hid : h.id = tid) :
    ∃ r pubs, Send env ct st broker event = (r, st, ⟨[], [], pubs⟩) :=
  send_after_resolve env ct st broker event h st Effects.zero
    (getTopic_fast ct st broker h tid hres hcache hid)

/-- A whole sequence of Send calls whose snapshots all configure the id the
cached handle is already bound to: the state never changes and no handle is
ever created or stopped. -/
theorem sendSeq_steady (env : Env) (broker : BrokerKey) (event : Event)
    (h : TopicHandle) (tid : String) (hid : h.id = tid) :
    ∀ (cts : List CachedTargets) (st : SinkState),
      (∀ c ∈ cts, getTopicIDForBroker c broker = Except.ok tid) →
      lookupKey st.topics broker = some h →
      ∃ pubs, sendSeq env broker event cts st = (st, ⟨[], [], pubs⟩) := by
  intro cts
  induction cts with
  | nil => exact fun st _ _ => ⟨[], rfl⟩
  | cons c rest ih =>
    intro st hall hcache
    obtain ⟨r, pubs, hsend⟩ :=
      send_steady env c st broker event h tid
        (hall c (List.mem_cons_self c rest)) hcache hid
    obtain ⟨pubs2, hrest⟩ :=
      ih st (fun d hd => hall d (List.mem_cons_of_mem c hd)) hcache
    refine ⟨pubs ++ pubs2, ?_⟩
    unfold sendSeq
    rw [hsend]
    dsimp only
    rw [hrest]
    simp [Effects.app]

/-- Claim C5: for a broker whose configured topic id is unchanged across a
sequence of Send calls starting with no cached handle, exactly one handle is
created (on the first call), none is ever stopped, and the registry ends up
holding that very handle, regardless of how many calls follow. -/
theorem send_idempotent_cached (env : Env) (st : SinkState)
    (broker : BrokerKey) (event : Event) (tid : String)
    (ct : CachedTargets) (cts : List CachedTargets)
    (hres : getTopicIDForBroker ct broker = Except.ok tid)
    (hall : ∀ c ∈ cts, getTopicIDForBroker c broker = Except.ok tid)
    (hnone : lookupKey st.topics broker = none) :
    (sendSeq env broker event (ct :: cts) st).2.created = [⟨st.nextUid, tid⟩] ∧
    (sendSeq env broker event (ct :: cts) st).2.stopped = [] ∧
    lookupKey (sendSeq env broker event (ct :: cts) st).1.topics broker
      = some ⟨st.nextUid, tid⟩ := by
  obtain ⟨r, pubs, hsend⟩ :=
    send_after_resolve env ct st broker event ⟨st.nextUid, tid⟩
      ⟨insertKey st.topics broker ⟨st.nextUid, tid⟩, st.nextUid + 1⟩
      ⟨[⟨st.nextUid, tid⟩], [], []⟩
      (getTopic_create ct st broker tid hres hnone)
  obtain ⟨pubs2, hrest⟩ :=
    sendSeq_steady env broker event ⟨st.nextUid, tid⟩ tid rfl cts
      ⟨insertKey st.topics broker ⟨st.nextUid, tid⟩, st.nextUid + 1⟩ hall
      (lookupKey_insertKey_self st.topics broker ⟨st.nextUid, tid⟩)
  have hseq : sendSeq env broker event (ct :: cts) st
      = (⟨insertKey st.topics broker ⟨st.nextUid, tid⟩, st.nextUid + 1⟩,
         Effects.app ⟨[⟨st.nextUid, tid⟩], [], pubs⟩ ⟨[], [], pubs2⟩) := by
    unfold sendSeq
    rw [hsend]
    dsimp only
    rw [hrest]
  rw [hseq]
  refine ⟨rfl, rfl, ?_⟩
  exact lookupKey_insertKey_self st.topics broker ⟨st.nextUid, tid⟩

/-- Snapshot configuring broker bk0 with a READY queue on topic t1. -/
def ctReady : CachedTargets :=
  CachedTargets.Store CachedTargets.new
    (some ⟨[("ns/b", ⟨some ⟨"t1", QState.ready⟩, []⟩)]⟩)

/-- Witness for C5: three Send calls against the same snapshot create the
single handle ⟨0, t1⟩ and never stop one. -/
theorem send_idempotent_cached_w :
    getTopicIDForBroker ctReady bk0 = Except.ok "t1" ∧
    lookupKey st0.topics bk0 = none ∧
    ((sendSeq env0 bk0 ev0 (ctReady :: [ctReady, ctReady]) st0).2.created
        = [⟨0, "t1"⟩] ∧
     (sendSeq env0 bk0 ev0 (ctReady :: [ctReady, ctReady]) st0).2.stopped = [] ∧
     lookupKey (sendSeq env0 bk0 ev0 (ctReady :: [ctReady, ctReady]) st0).1.topics bk0
        = some ⟨0, "t1"⟩) :=
  ⟨rfl, rfl,
   send_idempotent_cached env0 st0 bk0 ev0 "t1" ctReady [ctReady, ctReady] rfl
     (fun c hc => by
       have hc' : c = ctReady := by simpa using hc
       subst hc'
       rfl)
     rfl⟩

/-- Claim C6: when the configured topic id for a broker has changed, the
next Send stops the stale cached handle exactly once, creates exactly one
fresh handle bound to the new id, stores it, and the registry afterwards
serves the new handle, which is distinct from the stale one. -/
theorem send_drift_swap (env : Env) (ct : CachedTargets) (st : SinkState)
    (broker : BrokerKey) (event : Event) (h : TopicHandle) (t2 : String)
    (hcache : lookupKey st.topics broker = some h)
    (hres : getTopicIDForBroker ct broker = Except.ok t2)
    (hne : h.id ≠ t2) :
    (Send env ct st broker event).2.2.stopped = [h] ∧
    (Send env ct st broker event).2.2.created = [⟨st.nextUid, t2⟩] ∧
    lookupKey (Send env ct st broker event).2.1.topics broker
      = some ⟨st.nextUid, t2⟩ ∧
    (⟨st.nextUid, t2⟩ : TopicHandle) ≠ h := by
  obtain ⟨r, pubs, hsend⟩ :=
    send_after_resolve env ct st broker event ⟨st.nextUid, t2⟩
      ⟨insertKey st.topics broker ⟨st.nextUid, t2⟩, st.nextUid + 1⟩
      ⟨[⟨st.nextUid, t2⟩], [h], []⟩
      (getTopic_drift ct st broker h t2 hres hcache hne)
  rw [hsend]
  refine ⟨rfl, rfl, lookupKey_insertKey_self st.topics broker ⟨st.nextUid, t2⟩, ?_⟩
  intro he
  apply hne
  rw [← he]

/-- Snapshot reconfiguring broker bk0 to a READY queue on topic t2. -/
def ctReady2 : CachedTargets :=
  CachedTargets.Store CachedTargets.new
    (some ⟨[("ns/b", ⟨some ⟨"t2", QState.ready⟩, []⟩)]⟩)

/-- Witness for C6: with handle ⟨0, t1⟩ cached and the snapshot now naming
t2, one Send stops ⟨0, t1⟩, creates ⟨1, t2⟩ and serves it. -/
theorem send_drift_swap_w :
    lookupKey (SinkState.topics ⟨[(bk0, ⟨0, "t1"⟩)], 1⟩) bk0 = some ⟨0, "t1"⟩ ∧
    getTopicIDForBroker ctReady2 bk0 = Except.ok "t2" ∧
    ((Send env0 ctReady2 ⟨[(bk0, ⟨0, "t1"⟩)], 1⟩ bk0 ev0).2.2.stopped
        = [⟨0, "t1"⟩] ∧
     (Send env0 ctReady2 ⟨[(bk0, ⟨0, "t1"⟩)], 1⟩ bk0 ev0).2.2.created
        = [⟨1, "t2"⟩] ∧
     lookupKey (Send env0 ctReady2 ⟨[(bk0, ⟨0, "t1"⟩)], 1⟩ bk0 ev0).2.1.topics bk0
        = some ⟨1, "t2"⟩ ∧
     (⟨1, "t2"⟩ : TopicHandle) ≠ ⟨0, "t1"⟩) :=
  ⟨rfl, rfl,
   send_drift_swap env0 ctReady2 ⟨[(bk0, ⟨0, "t1"⟩)], 1⟩ bk0 ev0 ⟨0, "t1"⟩ "t2"
     rfl rfl (by decide)⟩

/-! ## Interest-filter lemmas -/

/-- The inner target loop of hasTrigger's visitor computes whether any
target in the list passes the predicate, stopping at the first hit. -/
theorem rangeTargetList_visitor (p : Target → Bool) (s : Bool)
    (ts : List (String × Target)) :
    CachedTargets.rangeTargetList
        (fun h t => if p t then (true, false) else (h, true)) s ts
      = (s || ts.any fun e => p e.2, !(ts.any fun e => p e.2)) := by
  induction ts generalizing s with
  | nil => simp [CachedTargets.rangeTargetList]
  | cons e rest ih =>
    by_cases hp : p e.2
    · simp [CachedTargets.rangeTargetList, hp]
    · simp [CachedTargets.rangeTargetList, hp, ih]

/-- The outer broker loop of hasTrigger's visitor computes whether any
target of any broker passes the predicate. -/
theorem rangeBrokerList_visitor (p : Target → Bool) (s : Bool)
    (bs : List (String × Broker)) :
    CachedTargets.rangeBrokerList
        (fun h t => if p t then (true, false) else (h, true)) s bs
      = (s || bs.any fun e => e.2.targets.any fun te => p te.2) := by
  induction bs generalizing s with
  | nil => simp [CachedTargets.rangeBrokerList]
  | cons e rest ih =>
    by_cases hb : e.2.targets.any (fun te => p te.2)
    · simp [CachedTargets.rangeBrokerList, rangeTargetList_visitor, hb]
    · simp [CachedTargets.rangeBrokerList, rangeTargetList_visitor, hb, ih]

/-- hasTrigger on a loaded snapshot is exactly an existence check over
every target of every broker in it. -/
theorem hasTrigger_eq_any (env : Env) (tc : TargetsConfig) (event : Event) :
    hasTrigger env (some (some tc)) event
      = Except.ok (tc.brokers.any fun e =>
          e.2.targets.any fun te =>
            env.eventFilterFunc te.2.filterAttributes event) := by
  have h0 : hasTrigger env (some (some tc)) event
      = Except.ok (CachedTargets.rangeBrokerList
          (fun h target =>
            if env.eventFilterFunc target.filterAttributes event then (true, false)
            else (h, true)) false tc.brokers) := rfl
  rw [h0,
    rangeBrokerList_visitor
      (fun target => env.eventFilterFunc target.filterAttributes event)]
  simp

/-- When resolution succeeds, getTopicForBroker yields some handle without
issuing a publish. -/
theorem getTopicForBroker_ok (ct : CachedTargets) (st : SinkState)
    (broker : BrokerKey) (tid : String)
    (hres : getTopicIDForBroker ct broker = Except.ok tid) :
    ∃ topic st' eff,
      getTopicForBroker ct st broker = (Except.ok topic, st', eff) ∧
      eff.published = [] := by
  cases hcache : lookupKey st.topics broker with
  | none =>
    exact ⟨_, _, _, getTopic_create ct st broker tid hres hcache, rfl⟩
  | some h =>
    by_cases hid : h.id = tid
    · exact ⟨_, _, _, getTopic_fast ct st broker h tid hres hcache hid, rfl⟩
    · exact ⟨_, _, _, getTopic_drift ct st broker h tid hres hcache hid, rfl⟩

/-- Claim C7: hasTrigger checks every target of every broker in the entire
snapshot (it equals an existence check over the whole broker map, not just
the addressed broker), and when filtering is enabled, the addressed broker
resolves, and no target anywhere matches, Send returns success having
published nothing. -/
theorem send_filtering_scope (env : Env) (tc : TargetsConfig) (st : SinkState)
    (broker : BrokerKey) (event : Event) (tid : String)
    (henf : env.enableEventFiltering = true)
    (hres : getTopicIDForBroker (some (some tc)) broker = Except.ok tid)
    (hmatch : ∀ e ∈ tc.brokers, ∀ te ∈ e.2.targets,
      env.eventFilterFunc te.2.filterAttributes event = false) :
    hasTrigger env (some (some tc)) event
      = Except.ok (tc.brokers.any fun e =>
          e.2.targets.any fun te =>
            env.eventFilterFunc te.2.filterAttributes event) ∧
    (Send env (some (some tc)) st broker event).1 = Except.ok () ∧
    (Send env (some (some tc)) st broker event).2.2.published = [] := by
  have hany : (tc.brokers.any fun e =>
      e.2.targets.any fun te =>
        env.eventFilterFunc te.2.filterAttributes event) = false := by
    rw [Bool.eq_false_iff]
    intro hcon
    rw [List.any_eq_true] at hcon
    obtain ⟨e, he, hin⟩ := hcon
    rw [List.any_eq_true] at hin
    obtain ⟨te, hte, hflt⟩ := hin
    rw [hmatch e he te hte] at hflt
    exact Bool.false_ne_true hflt
  have hht : hasTrigger env (some (some tc)) event = Except.ok false := by
    rw [hasTrigger_eq_any, hany]
  obtain ⟨topic, st', eff, hget, hpub⟩ :=
    getTopicForBroker_ok (some (some tc)) st broker tid hres
  have hsend : Send env (some (some tc)) st broker event
      = (Except.ok (), st', eff) := by
    unfold Send
    rw [hget]
    dsimp only
    rw [henf, hht]
    rfl
  exact ⟨hasTrigger_eq_any env tc event, by rw [hsend], by rw [hsend]; exact hpub⟩

/-- Environment with filtering enabled and a filter that never matches. -/
def envF : Env :=
  ⟨true, fun _ _ => false, fun _ => none, fun _ _ => none⟩

/-- A snapshot with one READY broker owning one target. -/
def tcW : TargetsConfig :=
  ⟨[("ns/b", ⟨some ⟨"t1", QState.ready⟩, [("tg", ⟨"tg", [("type", "y")]⟩)]⟩)]⟩

/-- Witness for C7: with filtering enabled and no interested target, a Send
to the (resolvable) broker succeeds and publishes nothing. -/
theorem send_filtering_scope_w :
    envF.enableEventFiltering = true ∧
    getTopicIDForBroker (some (some tcW)) bk0 = Except.ok "t1" ∧
    ((Send envF (some (some tcW)) st0 bk0 ev0).1 = Except.ok () ∧
     (Send envF (some (some tcW)) st0 bk0 ev0).2.2.published = []) :=
  ⟨rfl, rfl,
   (send_filtering_scope envF tcW st0 bk0 ev0 "t1" rfl rfl
       (fun e _ te _ => rfl)).2⟩

/-! ## Serialization determinism (C9) -/

/-- A minimal broker value. -/
def brA : Broker := ⟨none, []⟩

/-- Two-broker snapshot as one Go map iteration order might present it. -/
def cexA : TargetsConfig := ⟨[("a", brA), ("c", brA)]⟩

/-- The same two-broker map presented in the other iteration order, as Go's
unspecified (and deliberately randomized) map iteration may do on another
call. -/
def cexB : TargetsConfig := ⟨[("c", brA), ("a", brA)]⟩

/-- Counterexample to claim C9 as stated: cexA and cexB are equal as
finite maps (equal content), yet Bytes emits the map entries in iteration
order with no Deterministic marshal option, so the two outputs differ
byte for byte. -/
theorem bytes_orderDependent :
    TargetsConfig.contentEqual cexA cexB = true ∧
    CachedTargets.Bytes (CachedTargets.Store CachedTargets.new (some cexA))
      ≠ CachedTargets.Bytes (CachedTargets.Store CachedTargets.new (some cexB)) := by
  refine ⟨by decide, ?_⟩
  intro hcon
  have hm : protoMarshal (some cexA) = protoMarshal (some cexB) :=
    Except.ok.inj hcon
  have hne : protoMarshal (some cexA) ≠ protoMarshal (some cexB) := by decide
  exact hne hm

/-- Claim C9 amended: Bytes is a function of the loaded snapshot value
together with its map-entry enumeration order; two cells whose Load yields
the same enumeration-ordered value produce byte-for-byte equal output. -/
theorem bytes_deterministic_on_value (ct1 ct2 : CachedTargets)
    (v : Option TargetsConfig)
    (h1 : ct1.Load = Except.ok v) (h2 : ct2.Load = Except.ok v) :
    ct1.Bytes = ct2.Bytes := by
  unfold CachedTargets.Bytes
  rw [h1, h2]

/-- Witness for the amended C9: two cells with different store histories
but the same loaded value serialize identically. -/
theorem bytes_deterministic_on_value_w :
    CachedTargets.Load (CachedTargets.Store CachedTargets.new (some cexA))
      = Except.ok (some cexA) ∧
    CachedTargets.Load
        (CachedTargets.Store (CachedTargets.Store CachedTargets.new none) (some cexA))
      = Except.ok (some cexA) ∧
    CachedTargets.Bytes (CachedTargets.Store CachedTargets.new (some cexA))
      = CachedTargets.Bytes
          (CachedTargets.Store (CachedTargets.Store CachedTargets.new none) (some cexA)) :=
  ⟨rfl, rfl,
   bytes_deterministic_on_value
     (CachedTargets.Store CachedTargets.new (some cexA))
     (CachedTargets.Store (CachedTargets.Store CachedTargets.new none) (some cexA))
     (some cexA) rfl rfl⟩

end KnativeGCP
